import Mathlib

/-!
Verification development for the "export-this" editor extension
(source: src/extension.ts).  The extension locates the nearest `index.ts`
"barrel" file above the active file (`findIndex`), computes a relative
module specifier (`getRelativePath`), appends a re-export line to the
barrel on command, and scans open documents for lines containing
`export` to surface advisory hint diagnostics (`refreshDiagnostics`).

The embedding models JS strings as Lean `String` (ASCII content, so the
UTF-16 index arithmetic of JS coincides with character indices), the
file system as an association list from path to file text, and the
VS Code diagnostic collection as an association list from document path
to its diagnostic list.
-/

set_option maxRecDepth 100000

namespace ExportThis

/-- The apostrophe character (code 39), used to build the inserted
re-export line `export * from '<spec>';` without quoting issues. -/
def squoteChar : Char := Char.ofNat 39

/-- The apostrophe as a one-character string. -/
def squote : String := String.singleton squoteChar

/-! ### JS string primitives

`String.prototype.indexOf`, `String.prototype.includes` and
`String.prototype.replace` (with a string pattern and replacement, which
replaces only the first occurrence) from the source, modelled over the
character list of a Lean string. -/

/-- Helper for `strIndexOf`: first position at or after `i` where `pat`
occurs in `s`, scanning left to right. -/
def listIndexOfAux (pat : List Char) : List Char → Nat → Option Nat
  | [], i => if pat = [] then some i else none
  | c :: t, i =>
    if pat.isPrefixOf (c :: t) then some i else listIndexOfAux pat t (i + 1)

/-- JS `s.indexOf(pat)`, returning `none` for -1 and `some i` for a first
occurrence at character index `i`. -/
def strIndexOf (s pat : String) : Option Nat :=
  listIndexOfAux pat.data s.data 0

/-- JS `s.includes(pat)`. -/
def strContains (s pat : String) : Bool :=
  (strIndexOf s pat).isSome

/-- First `n` characters of `s` (JS `s.slice(0, n)` for ASCII). -/
def strTake (s : String) (n : Nat) : String :=
  String.mk (s.data.take n)

/-- Characters of `s` from index `n` on (JS `s.slice(n)` for ASCII). -/
def strDrop (s : String) (n : Nat) : String :=
  String.mk (s.data.drop n)

/-- JS `s.replace(pat, repl)` with a plain-string pattern: replaces only
the first occurrence of `pat`; if `pat` does not occur, returns `s`
unchanged.  (The source only uses `repl = ""`, so the `$`-substitution
rules of JS replacements are irrelevant.) -/
def replaceFirst (s pat repl : String) : String :=
  match strIndexOf s pat with
  | none => s
  | some i => String.mk (s.data.take i ++ repl.data ++ s.data.drop (i + pat.data.length))

/-! ### Node `path.posix` model

The source uses `posix.join`, `posix.dirname` and `posix.basename`.
These are modelled after Node's documented posix semantics on the input
domain the extension produces (absolute, slash-separated paths without a
trailing slash). -/

/-- Split a character list on `/`, keeping empty components, as
`"a/b".split("/")` would. -/
def splitSlashAux : List Char → List Char → List (List Char)
  | [], cur => [cur.reverse]
  | c :: rest, cur =>
    if c = '/' then cur.reverse :: splitSlashAux rest []
    else splitSlashAux rest (c :: cur)

/-- Split a path's characters into its `/`-separated components. -/
def splitSlash (cs : List Char) : List (List Char) :=
  splitSlashAux cs []

/-- Join components with `/` separators. -/
def joinSlashAux : List (List Char) → List Char
  | [] => []
  | [c] => c
  | c :: rest => c ++ '/' :: joinSlashAux rest

/-- Node path normalization over components: drops empty and `.`
components, resolves `..` against the accumulated prefix; `allowUp`
(set for relative paths) keeps leading `..` components instead of
dropping them at the root. -/
def normCompsAux (allowUp : Bool) : List (List Char) → List (List Char) → List (List Char)
  | [], acc => acc.reverse
  | c :: rest, acc =>
    if c = [] ∨ c = ['.'] then normCompsAux allowUp rest acc
    else if c = ['.', '.'] then
      match acc with
      | [] =>
        if allowUp then normCompsAux allowUp rest [c]
        else normCompsAux allowUp rest []
      | a :: t =>
        if a = ['.', '.'] then normCompsAux allowUp rest (c :: acc)
        else normCompsAux allowUp rest t
    else normCompsAux allowUp rest (c :: acc)

/-- Node `posix.join(...parts)`: concatenate the non-empty segments with
`/` and normalize.  Trailing-slash preservation is omitted: every join
in the source ends in the segment `index.ts`. -/
def posixJoin (parts : List String) : String :=
  let segs := parts.filter (fun s => s ≠ "")
  match segs with
  | [] => "."
  | _ =>
    let rawChars := joinSlashAux (segs.map String.data)
    let isAbs := rawChars.head? = some '/'
    let comps := normCompsAux (!isAbs) (splitSlash rawChars) []
    match comps with
    | [] => if isAbs then "/" else "."
    | _ => String.mk ((if isAbs then ['/'] else []) ++ joinSlashAux comps)

/-- Helper for `posixDirname`: scanning indices `i, i-1, ..., 1` of `cs`
from the end, skip trailing slashes, then return the index of the slash
that ends the directory part (Node's `dirname` scan). -/
def dirEnd (cs : List Char) : Nat → Bool → Option Nat
  | 0, _ => none
  | Nat.succ i, matchedSlash =>
    match cs.get? (i + 1) with
    | some c =>
      if c = '/' then
        if matchedSlash then dirEnd cs i matchedSlash else some (i + 1)
      else dirEnd cs i false
    | none => dirEnd cs i matchedSlash

/-- Node `posix.dirname(p)`. -/
def posixDirname (p : String) : String :=
  let cs := p.data
  if cs.length = 0 then "."
  else
    let hasRoot := cs.head? = some '/'
    match dirEnd cs (cs.length - 1) true with
    | none => if hasRoot then "/" else "."
    | some e =>
      if hasRoot ∧ e = 1 then "//" else String.mk (cs.take e)

/-- Node `posix.basename(p)` (one-argument form): the last non-empty
`/`-separated component, or `""` when there is none. -/
def posixBasenameCore (p : String) : String :=
  match ((splitSlash p.data).filter (fun c => c ≠ [])).getLast? with
  | some b => String.mk b
  | none => ""

/-- Node `posix.basename(p, ext)`: the basename with the suffix `ext`
stripped when the basename ends with `ext` and is not `ext` itself. -/
def posixBasename (p ext : String) : String :=
  let b := posixBasenameCore p
  if ext ≠ "" ∧ ext ≠ b ∧ ext.data.isSuffixOf b.data then
    strTake b (b.data.length - ext.data.length)
  else b

/-! ### Host environment and file system -/

/-- The slice of the VS Code host state the extension reads:
`workspace.workspaceFolders[0]` (its uri path, when a workspace is
open), `window.activeTextEditor?.document.uri` (the active file's path, when
present), and the file system as an association list from path to
file text.  `fs.stat` succeeds exactly on the listed paths. -/
structure Env where
  workspace : Option String
  activeFile : Option String
  fs : List (String × String)
deriving DecidableEq

/-- `vscode.workspace.fs.stat(uri)` succeeding: the path exists. -/
def statOk (fs : List (String × String)) (p : String) : Bool :=
  fs.any (fun e => e.1 == p)

/-- `vscode.workspace.openTextDocument(uri).getText()`: the text of an
existing file, `none` when opening rejects because the file is absent. -/
def readFile (fs : List (String × String)) (p : String) : Option String :=
  (fs.find? (fun e => e.1 == p)).map Prod.snd

/-! ### findIndex (src/extension.ts lines 167-220)

The upward walk for the nearest `index.ts`.  Note two facts visible in
the source and preserved here: the `if (!indexUri)` check at line 190
can never fire (`vscode.Uri.file` always returns an object), and the
function returns the last candidate `indexUri` even when the loop ended
without finding a file — the not-found case is *not* signalled by
`null`. -/

/-- The first probed candidate: `posix.join(filePath.path, '..', 'index.ts')`. -/
def firstCand (fp : String) : String :=
  posixJoin [fp, "..", "index.ts"]

/-- One upward step of the walk:
`posix.join(indexUri.path, '..', '..', 'index.ts')`. -/
def walkStep (q : String) : String :=
  posixJoin [q, "..", "..", "index.ts"]

/-- The `n`-th candidate probed by the walk, starting from candidate `p`. -/
def walkCand (p : String) (n : Nat) : String :=
  walkStep^[n] p

/-- The `while (!found && iteration < 100)` loop of `findIndex`:
probe the candidate; on success return it; otherwise step upward, break
(returning the current candidate) when the next candidate no longer
contains the workspace path as a substring, and continue while the
incremented iteration counter stays below 100 (returning the current
candidate when the cap is reached).  The source counts `iteration` up
from 0 with guard `iteration + 1 < 100` before each further pass; here
the identical count is tracked downward as the number of still-allowed
further passes, `fuel = 99 - iteration`, so the recursion is structural:
entry is `fuel = 99` and guard `iteration + 1 < 100` is `fuel ≠ 0`. -/
def findIndexLoop (fs : List (String × String)) (ws : String) :
    Nat → String → String
  | fuel, indexPath =>
    if statOk fs indexPath then indexPath
    else
      let next := walkStep indexPath
      if (strIndexOf next ws).isNone then indexPath
      else
        match fuel with
        | 0 => indexPath
        | fuel' + 1 => findIndexLoop fs ws fuel' next

/-- `findIndex()` from the source.  Returns `none` exactly for the two
precondition failures (no workspace folder, no active editor), in which
case the source also shows its own error message; otherwise returns the
`indexUri` the loop ended on — found or not. -/
def findIndex (env : Env) : Option String :=
  match env.workspace with
  | none => none
  | some ws =>
    match env.activeFile with
    | none => none
    | some fp => some (findIndexLoop env.fs ws 99 (firstCand fp))

/-- The list of candidate paths actually probed by `findIndexLoop`, in
probe order; mirrors `findIndexLoop` branch for branch and is used to
state the iteration bound of the walk. -/
def findIndexTrace (fs : List (String × String)) (ws : String) :
    Nat → String → List String
  | fuel, indexPath =>
    if statOk fs indexPath then [indexPath]
    else
      let next := walkStep indexPath
      if (strIndexOf next ws).isNone then [indexPath]
      else
        match fuel with
        | 0 => [indexPath]
        | fuel' + 1 => indexPath :: findIndexTrace fs ws fuel' next

/-! ### getRelativePath (src/extension.ts lines 222-235) -/

/-- `getRelativePath(indexUri)`: `none` when there is no active editor;
otherwise `fileDir.replace(indexDir, '') + '/' + fileName` where
`fileDir`/`fileName` come from the active file and `indexDir` is the
barrel file's directory.  The `replace` is JS first-occurrence string
replacement, not prefix stripping. -/
def getRelativePath (env : Env) (indexPath : String) : Option String :=
  match env.activeFile with
  | none => none
  | some fp =>
    let fileDir := posixDirname fp
    let fileName := posixBasename fp (".ts")
    let indexDir := posixDirname indexPath
    let relativePath := replaceFirst fileDir indexDir ""
    some (relativePath ++ "/" ++ fileName)

/-! ### The export command (src/extension.ts lines 22-55) -/

/-- The re-export line the command builds:
`export * from '.` + relPath + `';`. -/
def exportLine (relPath : String) : String :=
  ("export * from ") ++ squote ++ "." ++ relPath ++ squote ++ ";"

/-- Observable outcome of one invocation of the registered command. -/
inductive CmdResult where
  /-- `showErrorMessage('Unable to find an index.ts file to export to')`
  was called (the `if (!indexUri)` branch of the handler). -/
  | shownUnableToFind : CmdResult
  /-- `showErrorMessage('Unable to construct the relative path')`. -/
  | shownUnableRelPath : CmdResult
  /-- `openTextDocument(indexUri)` rejected (the path does not exist);
  the `await` sits outside the handler's try/catch, so the rejection
  escapes the command handler and no message is shown. -/
  | openDocRejected : CmdResult
  /-- The edit went through: the barrel at the given path now holds the
  given text (previous content with the export line appended at the very
  end, `Position(lineCount, 0)` clamping to the end of the document). -/
  | inserted (barrel : String) (newText : String) : CmdResult
deriving DecidableEq

/-- The command handler registered for `export-this.command`. -/
def runExportCommand (env : Env) : CmdResult :=
  match findIndex env with
  | none => CmdResult.shownUnableToFind
  | some indexPath =>
    match getRelativePath env indexPath with
    | none => CmdResult.shownUnableRelPath
    | some relPath =>
      match readFile env.fs indexPath with
      | none => CmdResult.openDocRejected
      | some content => CmdResult.inserted indexPath (content ++ exportLine relPath)

/-! ### Diagnostics (src/extension.ts lines 85-165) -/

/-- One advisory diagnostic as built at lines 124-131: range
`(line, colStart)`-`(line, colEnd)` on a single line, fixed code
`export_this_mention` (severity Hint and message `Export file` are
constants of the source and carry no further information). -/
structure Diagnostic where
  line : Nat
  colStart : Nat
  colEnd : Nat
  code : String
deriving DecidableEq

/-- The diagnostic for an `export` occurrence first found at column
`idx` of line `line` (`EXPORT.length = 6`). -/
def mkDiag (line idx : Nat) : Diagnostic :=
  ⟨line, idx, idx + 6, "export_this_mention"⟩

/-- The host's `DiagnosticCollection`, keyed by document path. -/
def DiagMap : Type := List (String × List Diagnostic)

instance : DecidableEq DiagMap := by
  unfold DiagMap
  infer_instance

/-- `diagnosticsCollection.set(uri, diags)`: replaces whatever entry the
key had. -/
def setDiag (m : DiagMap) (k : String) (v : List Diagnostic) : DiagMap :=
  (k, v) :: m.filter (fun e => e.1 != k)

/-- The diagnostics currently attached to a document (empty when none). -/
def getDiag (m : DiagMap) (k : String) : List Diagnostic :=
  ((m.find? (fun e => e.1 == k)).map Prod.snd).getD []

/-- `diagnosticsCollection.delete(uri)` (the close handler). -/
def deleteDiag (m : DiagMap) (k : String) : DiagMap :=
  m.filter (fun e => e.1 != k)

/-- An open text document: its path and its lines
(`doc.lineCount` / `doc.lineAt(i).text`). -/
structure Doc where
  path : String
  lines : List String
deriving DecidableEq

/-- Outcome of one `refreshDiagnostics` run: either the function
returned normally, leaving the collection in the given state, or a
promise rejection escaped it (there is no try/catch inside). -/
inductive ScanOutcome where
  | ok (coll : DiagMap) : ScanOutcome
  | threw : ScanOutcome
deriving DecidableEq

/-- The `for (lineIndex …)` loop of `refreshDiagnostics`, walking the
remaining lines with the current line index and the accumulated
`diagnostics` array.  Per line containing `export`: take the first
occurrence index, call `findIndex()` (null aborts the whole function
without touching the collection), `getRelativePath` (likewise),
open the barrel document (a missing file rejects and the rejection
escapes), and push a diagnostic only when the barrel text does not
contain the relative path.  After the loop the collection is set. -/
def scanLines (env : Env) (docPath : String) (coll : DiagMap) :
    List String → Nat → List Diagnostic → ScanOutcome
  | [], _, acc => ScanOutcome.ok (setDiag coll docPath acc)
  | text :: rest, lineIndex, acc =>
    if strContains text ("export") then
      let idx := (strIndexOf text ("export")).getD 0
      match findIndex env with
      | none => ScanOutcome.ok coll
      | some indexPath =>
        match getRelativePath env indexPath with
        | none => ScanOutcome.ok coll
        | some relPath =>
          match readFile env.fs indexPath with
          | none => ScanOutcome.threw
          | some barrelText =>
            if (strIndexOf barrelText relPath).isNone then
              scanLines env docPath coll rest (lineIndex + 1) (acc ++ [mkDiag lineIndex idx])
            else
              scanLines env docPath coll rest (lineIndex + 1) acc
    else scanLines env docPath coll rest (lineIndex + 1) acc

/-- `refreshDiagnostics(doc, diagnosticsCollection)`: documents whose
basename is `index.ts` are never scanned (immediate return); otherwise
the line loop runs. -/
def refreshDiagnostics (env : Env) (doc : Doc) (coll : DiagMap) : ScanOutcome :=
  if posixBasenameCore doc.path = "index.ts" then ScanOutcome.ok coll
  else scanLines env doc.path coll doc.lines 0 []

/-- The three events that recompute a document's diagnostics
(`subscribeToDocumentChanges`): the initial activation scan, the
active-editor-change subscription and the text-change subscription. -/
inductive Trigger where
  | initialActivation : Trigger
  | activeEditorChange : Trigger
  | textChange : Trigger
deriving DecidableEq

/-- Each recompute trigger runs the same `refreshDiagnostics`. -/
def handleTrigger (env : Env) (_t : Trigger) (doc : Doc) (coll : DiagMap) : ScanOutcome :=
  refreshDiagnostics env doc coll

/-- The `onDidCloseTextDocument` subscription deletes the document's
entry. -/
def handleClose (doc : Doc) (coll : DiagMap) : DiagMap :=
  deleteDiag coll doc.path

/-- The marker set the spec predicts for a fully scanned, unsuppressed
document: exactly one diagnostic per line containing `export`, spanning
the six characters starting at the first occurrence. -/
def expectedMarkers : List String → Nat → List Diagnostic
  | [], _ => []
  | text :: rest, lineIndex =>
    (match strIndexOf text ("export") with
     | some idx => [mkDiag lineIndex idx]
     | none => []) ++ expectedMarkers rest (lineIndex + 1)

/-- The marker set one scan run freshly derives from the current host
state for a document: empty when the barrel lookup aborts or the
computed relative path already occurs in the barrel text, otherwise one
marker per `export` line. -/
def computedMarkers (env : Env) (doc : Doc) : List Diagnostic :=
  match findIndex env with
  | none => []
  | some ip =>
    match getRelativePath env ip with
    | none => []
    | some rp =>
      match readFile env.fs ip with
      | none => []
      | some tx =>
        if (strIndexOf tx rp).isNone then expectedMarkers doc.lines 0 else []

/-! ### Concrete inputs used by the claim theorems -/

/-- Workspace `/ws` with active file `/ws/a/Foo.ts` and no `index.ts`
anywhere (export-command scenario). -/
def envC1 : Env :=
  ⟨some ("/ws"), some ("/ws/a/Foo.ts"), [(("/ws/a/Foo.ts"), ("export class Foo \x7b\x7d"))]⟩

/-- Workspace `/ws` with active file `/ws/a/Foo.ts` and no `index.ts`
anywhere (scanner scenario). -/
def envC4 : Env :=
  ⟨some ("/ws"), some ("/ws/a/Foo.ts"), [(("/ws/a/Foo.ts"), ("export class Foo \x7b\x7d"))]⟩

/-- The active document of `envC4`, holding one `export` line. -/
def docC4 : Doc := ⟨("/ws/a/Foo.ts"), [("export class Foo \x7b\x7d")]⟩

/-- The directory path `/w/d/d/.../d` with `n` trailing `d` components. -/
def deepDir : Nat → String
  | 0 => "/w"
  | n + 1 => deepDir n ++ "/d"

/-- A pathologically deep workspace: the active file sits 101
directories below the root `/w`, and the only `index.ts` lies at
`/w/d/index.ts`, 100 directories above the file. -/
def envDeep : Env :=
  ⟨some ("/w"), some (deepDir 101 ++ "/F.ts"), [(("/w/d/index.ts"), ("x"))]⟩

/-- Workspace `/ws` with barrels at `/ws/a/index.ts` (near) and
`/ws/index.ts` (far) for the active file `/ws/a/b/Foo.ts`. -/
def envC2w : Env :=
  ⟨some ("/ws"), some ("/ws/a/b/Foo.ts"),
    [(("/ws/a/index.ts"), ("near")), (("/ws/index.ts"), ("far"))]⟩

/-- An environment whose active file's directory `/a/b` has the barrel
directory `/b` as a non-prefix substring. -/
def envC3 : Env := ⟨some ("/"), some ("/a/b/Foo.ts"), []⟩

/-- Workspace `/ws`, active file `/ws/a/Foo.ts`, barrel `/ws/index.ts`
whose text does not contain the computed specifier `/a/Foo`. -/
def envC5w : Env :=
  ⟨some ("/ws"), some ("/ws/a/Foo.ts"), [(("/ws/index.ts"), ("barrel"))]⟩

/-- Workspace `/ws`, active file `/ws/a/Foo.ts`, barrel `/ws/index.ts`
whose text already contains the computed specifier `/a/Foo`. -/
def envC6w : Env :=
  ⟨some ("/ws"), some ("/ws/a/Foo.ts"), [(("/ws/index.ts"), ("stuff /a/Foo stuff"))]⟩

/-- The workspace of the spec's worked example: root `/ws`, active file
`/ws/a/b/Foo.ts`, empty barrel at `/ws/a/index.ts`. -/
def envC7w : Env :=
  ⟨some ("/ws"), some ("/ws/a/b/Foo.ts"), [(("/ws/a/index.ts"), (""))]⟩

/-- Workspace `/ws`, active file `/ws/a/Foo.ts`, barrel `/ws/index.ts`
without the specifier; used to exercise marker replacement. -/
def envC8w : Env :=
  ⟨some ("/ws"), some ("/ws/a/Foo.ts"), [(("/ws/index.ts"), ("barrel text"))]⟩

/-- The document scanned in the C8 witness. -/
def docC8w : Doc := ⟨("/ws/a/Foo.ts"), [("export class Foo \x7b\x7d")]⟩

/-- A stale collection holding an outdated marker for the C8 document
and one for another document. -/
def collC8w : DiagMap :=
  [(("/ws/a/Foo.ts"), [mkDiag 7 3]), (("/ws/other.ts"), [mkDiag 1 0])]

/-- Workspace `/ws` whose barrel `/ws/index.ts` contains the ACTIVE
file's specifier `/a/Foo` but not `/b/Bar`, the specifier the scanned
document `/ws/b/Bar.ts` would have if the lookup used the scanned
document. -/
def envC10w : Env :=
  ⟨some ("/ws"), some ("/ws/a/Foo.ts"), [(("/ws/index.ts"), ("has /a/Foo only"))]⟩

/-- A document distinct from the active file of `envC10w`. -/
def docC10w : Doc := ⟨("/ws/b/Bar.ts"), [("export class Bar \x7b\x7d")]⟩

/-! ### Helper lemmas -/

lemma walkCand_zero (p : String) : walkCand p 0 = p := rfl

lemma walkCand_succ_shift (p : String) (n : Nat) :
    walkCand p (n + 1) = walkCand (walkStep p) n :=
  Function.iterate_succ_apply walkStep n p

/-- If the `k`-th candidate is the first existing one, every earlier
step stays inside the workspace (the substring check), and at least `k`
further passes are allowed, the walk returns exactly the `k`-th
candidate. -/
lemma findIndexLoop_finds (fs : List (String × String)) (ws : String) :
    ∀ (k : Nat) (fuel : Nat) (p : String),
      k ≤ fuel →
      statOk fs (walkCand p k) = true →
      (∀ j, j < k → statOk fs (walkCand p j) = false) →
      (∀ j, j < k → (strIndexOf (walkCand p (j + 1)) ws).isSome = true) →
      findIndexLoop fs ws fuel p = walkCand p k := by
  intro k
  induction k with
  | zero =>
    intro fuel p _ hfound _ _
    rw [walkCand_zero] at hfound ⊢
    rw [findIndexLoop, if_pos hfound]
  | succ k ih =>
    intro fuel p hk hfound hnear hin
    have h0 : statOk fs p = false := by
      have h := hnear 0 (Nat.succ_pos k)
      rwa [walkCand_zero] at h
    have h1 : (strIndexOf (walkStep p) ws).isSome = true := by
      have h := hin 0 (Nat.succ_pos k)
      rwa [walkCand_succ_shift, walkCand_zero] at h
    have h1n : (strIndexOf (walkStep p) ws).isNone = false := by
      cases hx : strIndexOf (walkStep p) ws
      · rw [hx] at h1; simp at h1
      · simp
    obtain ⟨fuel', rfl⟩ : ∃ fuel', fuel = fuel' + 1 := by
      cases fuel
      · omega
      · exact ⟨_, rfl⟩
    rw [findIndexLoop]
    simp only [h0, Bool.false_eq_true, if_false, h1n]
    rw [walkCand_succ_shift]
    exact ih fuel' (walkStep p) (by omega)
      (by rw [← walkCand_succ_shift]; exact hfound)
      (fun j hj => by rw [← walkCand_succ_shift]; exact hnear (j + 1) (by omega))
      (fun j hj => by rw [← walkCand_succ_shift]; exact hin (j + 1) (by omega))

/-- The walk probes at most `fuel + 1` candidates, and the value it
returns is the last candidate it probed. -/
lemma findIndexTrace_spec (fs : List (String × String)) (ws : String) :
    ∀ (fuel : Nat) (p : String),
      (findIndexTrace fs ws fuel p).length ≤ fuel + 1 ∧
      ∃ pre, findIndexTrace fs ws fuel p = pre ++ [findIndexLoop fs ws fuel p] := by
  intro fuel
  induction fuel with
  | zero =>
    intro p
    rw [findIndexTrace, findIndexLoop]
    by_cases h1 : statOk fs p = true
    · simp [h1]
    · have h1f : statOk fs p = false := by
        cases hx : statOk fs p
        · rfl
        · exact absurd hx h1
      by_cases h2 : (strIndexOf (walkStep p) ws).isNone = true
      · simp [h1f, h2]
      · have h2f : (strIndexOf (walkStep p) ws).isNone = false := by
          cases hx : (strIndexOf (walkStep p) ws).isNone
          · rfl
          · exact absurd hx h2
        simp [h1f, h2f]
  | succ fuel ih =>
    intro p
    rw [findIndexTrace, findIndexLoop]
    by_cases h1 : statOk fs p = true
    · simp [h1]
    · have h1f : statOk fs p = false := by
        cases hx : statOk fs p
        · rfl
        · exact absurd hx h1
      by_cases h2 : (strIndexOf (walkStep p) ws).isNone = true
      · simp [h1f, h2]
      · have h2f : (strIndexOf (walkStep p) ws).isNone = false := by
          cases hx : (strIndexOf (walkStep p) ws).isNone
          · rfl
          · exact absurd hx h2
        simp only [h1f, Bool.false_eq_true, if_false, h2f]
        obtain ⟨hlen, pre, hpre⟩ := ih (walkStep p)
        refine ⟨?_, ⟨p :: pre, by rw [hpre, List.cons_append]⟩⟩
        simp only [List.length_cons]
        omega

/-- Completed scan runs: when the barrel lookup, the relative path and
the barrel text all resolve, the line loop never aborts and sets the
document's entry to the accumulated diagnostics — one per `export`
line when the relative path is absent from the barrel text, none
otherwise. -/
lemma scanLines_complete (env : Env) (docPath : String) (coll : DiagMap)
    (ip rp tx : String)
    (hidx : findIndex env = some ip)
    (hrel : getRelativePath env ip = some rp)
    (hread : readFile env.fs ip = some tx) :
    ∀ (lines : List String) (lineIndex : Nat) (acc : List Diagnostic),
      scanLines env docPath coll lines lineIndex acc =
        ScanOutcome.ok (setDiag coll docPath
          (acc ++ (if (strIndexOf tx rp).isNone then expectedMarkers lines lineIndex else []))) := by
  intro lines
  induction lines with
  | nil =>
    intro lineIndex acc
    simp [scanLines, expectedMarkers]
  | cons text rest ih =>
    intro lineIndex acc
    cases hfind : strIndexOf text ("export") with
    | none =>
      have hc : strContains text ("export") = false := by
        simp [strContains, hfind]
      simp only [scanLines, hc, Bool.false_eq_true, if_false, ih, expectedMarkers, hfind]
      simp
    | some j =>
      have hc : strContains text ("export") = true := by
        simp [strContains, hfind]
      simp only [scanLines, hc, if_true, hfind, hidx, hrel, hread]
      cases habs : (strIndexOf tx rp).isNone with
      | true =>
        simp only [habs, if_true, ih, expectedMarkers, hfind]
        simp [List.append_assoc]
      | false =>
        simp only [habs, if_false, ih]
        simp [habs]

lemma getDiag_setDiag_self (m : DiagMap) (k : String) (v : List Diagnostic) :
    getDiag (setDiag m k v) k = v := by
  simp [getDiag, setDiag, List.find?]

lemma find?_filter_ne (q k : String) (h : q ≠ k) :
    ∀ m : List (String × List Diagnostic),
      (m.filter (fun e => e.1 != k)).find? (fun e => e.1 == q) =
        m.find? (fun e => e.1 == q) := by
  intro m
  induction m with
  | nil => rfl
  | cons a t ih =>
    by_cases hak : a.1 = k
    · have h1 : (a.1 != k) = false := by simp [hak]
      have h2 : (a.1 == q) = false := by
        simp only [beq_eq_false_iff_ne, ne_eq]
        rw [hak]; exact fun hh => h hh.symm
      simp [List.filter, h1, List.find?, h2, ih]
    · have h1 : (a.1 != k) = true := by simp [hak]
      by_cases haq : a.1 = q
      · have h2 : (a.1 == q) = true := by simp [haq]
        simp [List.filter, h1, List.find?, h2]
      · have h2 : (a.1 == q) = false := by simp [haq]
        simp [List.filter, h1, List.find?, h2, ih]

/-- `DiagnosticCollection.set` leaves every other document's markers
untouched. -/
lemma getDiag_setDiag_other (m : DiagMap) (k : String) (v : List Diagnostic)
    (q : String) (h : q ≠ k) :
    getDiag (setDiag m k v) q = getDiag m q := by
  have h2 : (k == q) = false := by
    simp only [beq_eq_false_iff_ne, ne_eq]
    exact fun hh => h hh.symm
  simp only [getDiag, setDiag, List.find?, h2]
  rw [find?_filter_ne q k h m]

/-! ### Claim theorems -/

/-- C1: the claim says that with a workspace and an open active file but
no `index.ts` anywhere between the file's directory and the workspace
root, the export command surfaces `Unable to find an index.ts file to
export to` and modifies no file.  The code does not: `findIndex` returns
the last probed (non-existent) candidate `/ws/index.ts` instead of null,
so the handler's `if (!indexUri)` branch — the only one that shows that
message — is skipped, and the invocation instead dies when
`openTextDocument` rejects (outside the try/catch).  No file is
modified, but the promised message never appears, contradicting the
source's own comment `If no index.ts was found, show an error and
exit.` -/
theorem C1_missing_barrel_no_message :
    findIndex envC1 = some ("/ws/index.ts") ∧
    statOk envC1.fs ("/ws/index.ts") = false ∧
    runExportCommand envC1 = CmdResult.openDocRejected ∧
    runExportCommand envC1 ≠ CmdResult.shownUnableToFind := by decide

/-- C2 (amended): for a starting file strictly inside the workspace
root whose candidate chain has its first existing `index.ts` at step
`k < 100`, with every step up to it still inside the workspace (the
substring containment check), the locator returns exactly that nearest
candidate, never a farther ancestor.  The bound `k < 100` is forced by
the iteration cap, see the counterexample. -/
theorem C2_locator_nearest (ws fp : String) (fs : List (String × String)) (k : Nat)
    (hk : k < 100)
    (hfound : statOk fs (walkCand (firstCand fp) k) = true)
    (hnear : ∀ j, j < k → statOk fs (walkCand (firstCand fp) j) = false)
    (hin : ∀ j, j < k → (strIndexOf (walkCand (firstCand fp) (j + 1)) ws).isSome = true) :
    findIndex ⟨some ws, some fp, fs⟩ = some (walkCand (firstCand fp) k) := by
  show some (findIndexLoop fs ws 99 (firstCand fp)) = _
  rw [findIndexLoop_finds fs ws k 99 (firstCand fp) (by omega) hfound hnear hin]

/-- C2 counterexample: the active file of `envDeep` sits 101 directories
below the workspace root `/w`; its ancestor chain contains the (only)
`index.ts` at `/w/d/index.ts`, strictly inside the root, at candidate
step 100 — but the iteration cap stops the walk after probing candidate
99, so the locator returns the non-existent `/w/d/…/d/index.ts` (two
components deep) instead of the nearest existing `index.ts`. -/
theorem C2_counterexample :
    statOk envDeep.fs ("/w/d/index.ts") = true ∧
    walkCand (firstCand (deepDir 101 ++ "/F.ts")) 100 = "/w/d/index.ts" ∧
    findIndex envDeep = some (deepDir 2 ++ "/index.ts") ∧
    deepDir 2 ++ "/index.ts" ≠ ("/w/d/index.ts" : String) ∧
    statOk envDeep.fs (deepDir 2 ++ "/index.ts") = false := by decide

/-- C2 witness: in `envC2w` both `/ws/a/index.ts` (one step up) and
`/ws/index.ts` (two steps up) exist; the locator returns the nearest
one. -/
theorem C2_locator_nearest_witness :
    findIndex envC2w = some ("/ws/a/index.ts") ∧
    statOk envC2w.fs ("/ws/index.ts") = true := by
  constructor
  · have h := C2_locator_nearest ("/ws") ("/ws/a/b/Foo.ts") envC2w.fs 1
      (by omega) (by decide) (by decide) (by decide)
    exact h.trans (by decide)
  · decide

/-- C3 (amended): the resolver produces `<suffix>/<basename>` where
`<suffix>` is the active file's directory with the FIRST OCCURRENCE of
the barrel's directory removed (JS `String.replace` with a string
pattern); when the barrel directory does not occur in the file directory
as a substring at all, the suffix is the unmodified file directory.
The claim's "not a textual prefix ⇒ unmodified" clause fails, see the
counterexample. -/
theorem C3_resolver_first_occurrence (env : Env) (ip fp : String)
    (h : env.activeFile = some fp) :
    ∃ suffix : String,
      getRelativePath env ip = some (suffix ++ "/" ++ posixBasename fp (".ts")) ∧
      (strIndexOf (posixDirname fp) (posixDirname ip) = none → suffix = posixDirname fp) ∧
      (∀ i, strIndexOf (posixDirname fp) (posixDirname ip) = some i →
        suffix = strTake (posixDirname fp) i ++
          strDrop (posixDirname fp) (i + (posixDirname ip).data.length)) := by
  refine ⟨replaceFirst (posixDirname fp) (posixDirname ip) "", ?_, ?_, ?_⟩
  · simp [getRelativePath, h]
  · intro hnone
    simp [replaceFirst, hnone]
  · intro i hi
    simp only [replaceFirst, hi, strTake, strDrop]
    show String.mk _ = String.mk _ ++ String.mk _
    have happ : ∀ a b : List Char, String.mk a ++ String.mk b = String.mk (a ++ b) :=
      fun a b => rfl
    rw [happ]
    simp

/-- C3 counterexample: the barrel directory `/b` is NOT a textual prefix
of the active file's directory `/a/b`, so the claim demands the
unmodified suffix `/a/b` (specifier `/a/b/Foo`); but `/b` occurs as a
non-prefix substring and JS `replace` removes that first occurrence,
producing `/a/Foo`. -/
theorem C3_counterexample :
    List.isPrefixOf ("/b").data ("/a/b").data = false ∧
    posixDirname ("/a/b/Foo.ts") = "/a/b" ∧
    posixDirname ("/b/index.ts") = "/b" ∧
    posixDirname ("/a/b/Foo.ts") ++ "/" ++ posixBasename ("/a/b/Foo.ts") (".ts") = "/a/b/Foo" ∧
    getRelativePath envC3 ("/b/index.ts") = some ("/a/Foo") ∧
    ("/a/Foo" : String) ≠ "/a/b/Foo" := by decide

/-- C3 witness: the amended statement instantiated at the
counterexample's input, pinning the produced specifier. -/
theorem C3_resolver_witness :
    getRelativePath envC3 ("/b/index.ts") =
      some (strTake ("/a/b") 2 ++ strDrop ("/a/b") 4 ++ "/" ++ "Foo") := by
  obtain ⟨suffix, h1, h2, h3⟩ :=
    C3_resolver_first_occurrence envC3 ("/b/index.ts") ("/a/b/Foo.ts") rfl
  have hs := h3 2 (by decide)
  rw [h1, hs]
  decide

/-- C4: the claim says a scan pass on a document for which no barrel
resolves completes without raising an error past the scanner.  That
holds only for the precondition failures (`findIndex` returning null:
no workspace or no active editor, second conjunct); when the barrel is
genuinely missing, `findIndex` returns the last probed non-existent
candidate, the scanner's null-check (`If no index.ts can be found at
all, don't even highlight`) never fires, and the `openTextDocument`
rejection escapes `refreshDiagnostics` (first conjunct).  No markers are
emitted in either case. -/
theorem C4_missing_barrel_scan_throws :
    refreshDiagnostics envC4 docC4 [] = ScanOutcome.threw ∧
    refreshDiagnostics ⟨none, some ("/ws/a/Foo.ts"), []⟩ docC4 [] = ScanOutcome.ok [] := by
  decide

/-- C5: for an open document that resolves a barrel whose text lacks
the computed specifier, the scanner emits exactly one marker per line
containing `export`, spanning exactly the character range of the first
occurrence (`expectedMarkers`); and a document whose basename is
`index.ts` is never scanned, whatever its content — the collection is
left untouched. -/
theorem C5_markers_per_export_line (env : Env) (doc : Doc) (coll : DiagMap) :
    (posixBasenameCore doc.path = "index.ts" →
      refreshDiagnostics env doc coll = ScanOutcome.ok coll) ∧
    (∀ ip rp tx : String, posixBasenameCore doc.path ≠ "index.ts" →
      findIndex env = some ip →
      getRelativePath env ip = some rp →
      readFile env.fs ip = some tx →
      strIndexOf tx rp = none →
      refreshDiagnostics env doc coll =
        ScanOutcome.ok (setDiag coll doc.path (expectedMarkers doc.lines 0))) := by
  constructor
  · intro h
    rw [refreshDiagnostics, if_pos h]
  · intro ip rp tx hb hidx hrel hread habs
    rw [refreshDiagnostics, if_neg hb,
      scanLines_complete env doc.path coll ip rp tx hidx hrel hread]
    simp [habs]

/-- C5 witness: one `export` line yields one marker at columns 0-6;
a document named `index.ts` containing `export` is left unscanned. -/
theorem C5_markers_witness :
    refreshDiagnostics envC5w ⟨("/ws/a/Foo.ts"), [("export class Foo \x7b\x7d")]⟩ [] =
      ScanOutcome.ok [(("/ws/a/Foo.ts"), [mkDiag 0 0])] ∧
    refreshDiagnostics envC5w ⟨("/ws/x/index.ts"), [("export all")]⟩ [] =
      ScanOutcome.ok [] := by
  constructor
  · have h := (C5_markers_per_export_line envC5w
        ⟨("/ws/a/Foo.ts"), [("export class Foo \x7b\x7d")]⟩ []).2
      ("/ws/index.ts") ("/a/Foo") ("barrel")
      (by decide) (by decide) (by decide) (by decide) (by decide)
    exact h.trans (by decide)
  · exact (C5_markers_per_export_line envC5w ⟨("/ws/x/index.ts"), [("export all")]⟩ []).1
      (by decide)

/-- C6: when the resolved barrel's text already contains the computed
relative specifier as a substring, the scan sets the document's marker
list to empty — no marker for any `export` line. -/
theorem C6_suppressed_when_specifier_present (env : Env) (doc : Doc) (coll : DiagMap)
    (ip rp tx : String) (i : Nat)
    (hb : posixBasenameCore doc.path ≠ "index.ts")
    (hidx : findIndex env = some ip)
    (hrel : getRelativePath env ip = some rp)
    (hread : readFile env.fs ip = some tx)
    (hpresent : strIndexOf tx rp = some i) :
    refreshDiagnostics env doc coll = ScanOutcome.ok (setDiag coll doc.path []) := by
  rw [refreshDiagnostics, if_neg hb,
    scanLines_complete env doc.path coll ip rp tx hidx hrel hread]
  simp [hpresent]

/-- C6 witness: the barrel text of `envC6w` contains the specifier
`/a/Foo`, so the `export` line of the document produces no marker. -/
theorem C6_suppressed_witness :
    refreshDiagnostics envC6w ⟨("/ws/a/Foo.ts"), [("export class Foo \x7b\x7d")]⟩ [] =
      ScanOutcome.ok [(("/ws/a/Foo.ts"), [])] := by
  have h := C6_suppressed_when_specifier_present envC6w
    ⟨("/ws/a/Foo.ts"), [("export class Foo \x7b\x7d")]⟩ []
    ("/ws/index.ts") ("/a/Foo") ("stuff /a/Foo stuff") 6
    (by decide) (by decide) (by decide) (by decide) (by decide)
  exact h.trans (by decide)

/-- C7: a successful export-command invocation with specifier `rp`
appends exactly the text `export * from '.` + `rp` + `';` to the end of
the barrel file's current content. -/
theorem C7_insert_at_end (env : Env) (ip rp content : String)
    (hidx : findIndex env = some ip)
    (hrel : getRelativePath env ip = some rp)
    (hread : readFile env.fs ip = some content) :
    runExportCommand env = CmdResult.inserted ip (content ++ exportLine rp) := by
  simp [runExportCommand, hidx, hrel, hread]

/-- C7 witness: the spec's worked example — workspace root `/ws`,
active file `/ws/a/b/Foo.ts`, barrel `/ws/a/index.ts`: the specifier is
`/b/Foo` and the inserted line is `export * from './b/Foo';`. -/
theorem C7_insert_witness :
    runExportCommand envC7w =
      CmdResult.inserted ("/ws/a/index.ts")
        (("export * from ") ++ squote ++ ("./b/Foo") ++ squote ++ (";")) ∧
    getRelativePath envC7w ("/ws/a/index.ts") = some ("/b/Foo") := by
  constructor
  · have h := C7_insert_at_end envC7w ("/ws/a/index.ts") ("/b/Foo") ("")
      (by decide) (by decide) (by decide)
    exact h.trans (by decide)
  · decide

/-- C8: every recompute trigger (initial activation, active-editor
change, text change) runs the same scan, which replaces the document's
entry in the collection with the freshly computed marker set
(`computedMarkers`): the result does not depend on the previous entry
(same new set for any two previous collections), the document's entry
afterwards is exactly the new set, and every other document's entry is
untouched. -/
theorem C8_markers_replaced_wholesale (env : Env) (doc : Doc) (coll coll2 : DiagMap)
    (ip rp tx : String) (t t2 : Trigger)
    (hb : posixBasenameCore doc.path ≠ "index.ts")
    (hidx : findIndex env = some ip)
    (hrel : getRelativePath env ip = some rp)
    (hread : readFile env.fs ip = some tx) :
    handleTrigger env t doc coll =
      ScanOutcome.ok (setDiag coll doc.path (computedMarkers env doc)) ∧
    handleTrigger env t2 doc coll2 =
      ScanOutcome.ok (setDiag coll2 doc.path (computedMarkers env doc)) ∧
    getDiag (setDiag coll doc.path (computedMarkers env doc)) doc.path =
      computedMarkers env doc ∧
    ∀ q, q ≠ doc.path →
      getDiag (setDiag coll doc.path (computedMarkers env doc)) q = getDiag coll q := by
  have hcm : computedMarkers env doc =
      (if (strIndexOf tx rp).isNone then expectedMarkers doc.lines 0 else []) := by
    simp [computedMarkers, hidx, hrel, hread]
  refine ⟨?_, ?_, getDiag_setDiag_self _ _ _, fun q hq => getDiag_setDiag_other _ _ _ q hq⟩
  · rw [handleTrigger, refreshDiagnostics, if_neg hb,
      scanLines_complete env doc.path coll ip rp tx hidx hrel hread, hcm]
    simp
  · rw [handleTrigger, refreshDiagnostics, if_neg hb,
      scanLines_complete env doc.path coll2 ip rp tx hidx hrel hread, hcm]
    simp

/-- C8 witness: a text-change recompute on a collection holding a stale
marker for the document replaces that entry with the new one-marker set
and leaves the other document's entry alone. -/
theorem C8_replace_witness :
    handleTrigger envC8w Trigger.textChange docC8w collC8w =
      ScanOutcome.ok
        [(("/ws/a/Foo.ts"), [mkDiag 0 0]), (("/ws/other.ts"), [mkDiag 1 0])] := by
  have h := (C8_markers_replaced_wholesale envC8w docC8w collC8w collC8w
    ("/ws/index.ts") ("/a/Foo") ("barrel text") Trigger.textChange Trigger.textChange
    (by decide) (by decide) (by decide) (by decide)).1
  exact h.trans (by decide)

/-- C9: for every file system, workspace root and starting file, the
upward walk probes at most 100 candidates (the iteration cap), and the
value `findIndex` returns is the last candidate the walk probed. -/
theorem C9_walk_bounded (fs : List (String × String)) (ws fp : String) :
    (findIndexTrace fs ws 99 (firstCand fp)).length ≤ 100 ∧
    ∃ pre, findIndexTrace fs ws 99 (firstCand fp) =
      pre ++ [findIndexLoop fs ws 99 (firstCand fp)] := by
  exact findIndexTrace_spec fs ws 99 (firstCand fp)

/-- C10: the scan of a document `doc` takes the barrel and the relative
specifier from the environment's ACTIVE file (`findIndex` and
`getRelativePath` read only `env`), not from `doc`: the marker set is
determined by the active file's specifier and `doc`'s lines alone, so
any other non-barrel document with the same lines scans to the same
set under the same active editor. -/
theorem C10_scan_uses_active_file (env : Env) (doc : Doc) (coll : DiagMap)
    (ip rp tx : String)
    (hb : posixBasenameCore doc.path ≠ "index.ts")
    (hidx : findIndex env = some ip)
    (hrel : getRelativePath env ip = some rp)
    (hread : readFile env.fs ip = some tx) :
    refreshDiagnostics env doc coll =
      ScanOutcome.ok (setDiag coll doc.path
        (if (strIndexOf tx rp).isNone then expectedMarkers doc.lines 0 else [])) ∧
    ∀ d2 : Doc, d2.lines = doc.lines → posixBasenameCore d2.path ≠ "index.ts" →
      refreshDiagnostics env d2 coll =
        ScanOutcome.ok (setDiag coll d2.path
          (if (strIndexOf tx rp).isNone then expectedMarkers doc.lines 0 else [])) := by
  constructor
  · rw [refreshDiagnostics, if_neg hb,
      scanLines_complete env doc.path coll ip rp tx hidx hrel hread]
    simp
  · intro d2 hl hb2
    rw [refreshDiagnostics, if_neg hb2,
      scanLines_complete env d2.path coll ip rp tx hidx hrel hread, hl]
    simp

/-- C10 witness: scanning `/ws/b/Bar.ts` while `/ws/a/Foo.ts` is active
suppresses all markers because the barrel contains the ACTIVE file's
specifier `/a/Foo` — even though the scanned document has an `export`
line and its own would-be specifier `/b/Bar` is absent from the
barrel. -/
theorem C10_active_witness :
    refreshDiagnostics envC10w docC10w [] = ScanOutcome.ok [(("/ws/b/Bar.ts"), [])] ∧
    expectedMarkers docC10w.lines 0 = [mkDiag 0 0] ∧
    strIndexOf ("has /a/Foo only") ("/b/Bar") = none := by
  refine ⟨?_, by decide, by decide⟩
  have h := (C10_scan_uses_active_file envC10w docC10w []
    ("/ws/index.ts") ("/a/Foo") ("has /a/Foo only")
    (by decide) (by decide) (by decide) (by decide)).1
  exact h.trans (by decide)

end ExportThis
